import Mathlib

/-!
Verification of the CFA (Cash Flow Affordability) scoring engine of
`src/cfa_calculator.py` against its natural-language specification.

The engine is embedded shallowly: pandas DataFrames become a `Frame`
(a list of rows together with column-presence flags, since a DataFrame
column can be absent), machine floats become exact rationals, and
Python exceptions become an `Except` monad.  Python's `round(x, n)`
rounds half to even, which `pyRound` reproduces exactly on rationals;
`round(sqrt v, 2)` is reproduced exactly on rationals by `sqrtRound2`.
-/

namespace CFA

/-- Rounding of a rational to the nearest integer with ties going to the even
integer: the behaviour of Python's builtin `round` (banker's rounding). -/
def roundHalfEven (q : ℚ) : ℤ :=
  if q - ⌊q⌋ < 1/2 then ⌊q⌋
  else if 1/2 < q - ⌊q⌋ then ⌊q⌋ + 1
  else if ⌊q⌋ % 2 = 0 then ⌊q⌋ else ⌊q⌋ + 1

/-- Python's `round(q, n)`: round to `n` decimal places, ties to even. -/
def pyRound (n : ℕ) (q : ℚ) : ℚ := (roundHalfEven (q * 10 ^ n) : ℚ) / 10 ^ n

/-- Largest integer `m` with `m * m ≤ q` (for `q ≥ 0`); exact floor of the real
square root of a nonnegative rational.  Writing `q = p / d`, the floor of
`√(p / d)` is the floor of `⌊√(p d)⌋ / d`, so it is computable on `ℕ`. -/
def floorSqrtQ (q : ℚ) : ℤ :=
  ((Nat.sqrt (q.num.toNat * q.den) / q.den : ℕ) : ℤ)

/-- Half-to-even rounding of the real square root of a nonnegative rational,
computed exactly: `√q` lies in `[m, m+1)` for `m = ⌊√q⌋`, and comparing `q`
with `(m + 1/2)^2` decides the rounding direction; the tie `√q = m + 1/2`
happens exactly when `q = (m + 1/2)^2`. -/
def roundHalfEvenSqrt (q : ℚ) : ℤ :=
  if q < ((floorSqrtQ q : ℚ) + 1/2) ^ 2 then floorSqrtQ q
  else if ((floorSqrtQ q : ℚ) + 1/2) ^ 2 < q then floorSqrtQ q + 1
  else if floorSqrtQ q % 2 = 0 then floorSqrtQ q else floorSqrtQ q + 1

/-- Python's `round(sqrt(q), 2)` computed exactly on rationals:
`round(√q, 2) = roundHalfEven(√(10000 q)) / 100`. -/
def sqrtRound2 (q : ℚ) : ℚ := (roundHalfEvenSqrt (10000 * q) : ℚ) / 100

/-- One row of the input time series.  Every potential column of the DataFrame
has a slot; whether a column is actually present in the frame is recorded by
the flags of `Frame` (a value in an absent column is meaningless). -/
structure Row where
  date : ℤ
  daily_balance : ℚ
  daily_income : ℚ
  daily_expenses : ℚ
  daily_net : ℚ
  can_pay : ℚ
deriving DecidableEq, Repr

/-- Shallow embedding of the pandas DataFrame handed to `CFACalculator`:
the rows plus, for each column the engine ever touches, a flag saying
whether that column is present. -/
structure Frame where
  rows : List Row
  hasDate : Bool
  hasBalance : Bool
  hasIncome : Bool
  hasExpenses : Bool
  hasNet : Bool
  hasCanPay : Bool
deriving DecidableEq, Repr

/-- Errors the constructor can raise.  `keyError c` models the Python
`KeyError` raised when an absent column `c` is accessed;
`insufficientHistory n` models the `ValueError` of `_validate_data` for a
series of `n < 90` rows ("Dataset debe tener al menos 90 días");
`schemaError cols` models the `ValueError` of `_validate_data` for missing
required columns ("Faltan columnas requeridas"). -/
inductive CFAError where
  | keyError (col : String)
  | insufficientHistory (n : ℕ)
  | schemaError (missing : List String)
deriving DecidableEq, Repr

/-- State of a constructed `CFACalculator`: the (preprocessed) data frame and
the biweekly parcel amount. -/
structure Calc where
  data : Frame
  biweekly_parcel : ℚ
deriving DecidableEq, Repr

/-- Comparison used by `sort_values('date')`: order rows by their date. -/
def rowLe (a b : Row) : Prop := a.date ≤ b.date

instance : DecidableRel rowLe := fun a b => inferInstanceAs (Decidable (a.date ≤ b.date))

instance : IsTotal Row rowLe := ⟨fun a b => Int.le_total a.date b.date⟩

instance : IsTrans Row rowLe := ⟨fun _ _ _ h₁ h₂ => le_trans h₁ h₂⟩

/-- Model of `self.data.sort_values('date')` (line 47): sort the rows by
ascending date.  (pandas' sort algorithm is only observable through tie
handling on equal dates, which no claim depends on.) -/
def sortByDate (l : List Row) : List Row := List.insertionSort rowLe l

/-- Required columns of `_validate_data` (line 62) that are missing from the
frame, in the fixed order of `required_cols`. -/
def missingRequired (f : Frame) : List String :=
  (if f.hasDate then [] else ["date"])
    ++ (if f.hasBalance then [] else ["daily_balance"])
    ++ (if f.hasIncome then [] else ["daily_income"])
    ++ (if f.hasExpenses then [] else ["daily_expenses"])

/-- Model of `_validate_data` (lines 57-65): first the length check
(`len(self.data) < 90`), then the required-columns check. -/
def validateData (f : Frame) (parcel : ℚ) : Except CFAError Calc :=
  if f.rows.length < 90 then .error (.insufficientHistory f.rows.length)
  else if missingRequired f ≠ [] then .error (.schemaError (missingRequired f))
  else .ok ⟨f, parcel⟩

/-- Row update performed by the `daily_net` derivation of `__init__`
(line 52): `daily_net = daily_income - daily_expenses`. -/
def netFix (r : Row) : Row := { r with daily_net := r.daily_income - r.daily_expenses }

/-- Model of `CFACalculator.__init__` (lines 37-55), in source order:
access and convert the `date` column (`KeyError` if absent), sort by date,
derive `daily_net` from `daily_income - daily_expenses` when the column is
absent (`KeyError` if either operand column is absent, left operand first),
and only then run `_validate_data`. -/
def mkCalc (f : Frame) (parcel : ℚ) : Except CFAError Calc :=
  if f.hasDate = false then .error (.keyError "date")
  else
    let sorted := sortByDate f.rows
    if f.hasNet = false then
      if f.hasIncome = false then .error (.keyError "daily_income")
      else if f.hasExpenses = false then .error (.keyError "daily_expenses")
      else validateData { f with rows := sorted.map netFix, hasNet := true } parcel
    else validateData { f with rows := sorted } parcel

/-- Per-record affordability rule of `calculate_can_pay` (line 74):
`1 if daily_balance >= biweekly_parcel else 0`. -/
def canPay (parcel : ℚ) (r : Row) : ℚ := if r.daily_balance ≥ parcel then 1 else 0

/-- Model of `CFACalculator.calculate_can_pay` (lines 67-75): write the
`can_pay` column as the per-row threshold indicator. -/
def Calc.calculate_can_pay (c : Calc) : Calc :=
  { c with data := { c.data with
      rows := c.data.rows.map (fun r => { r with can_pay := canPay c.biweekly_parcel r }),
      hasCanPay := true } }

/-- Guard at lines 85-86: compute the `can_pay` column only when it is not
already present in the frame. -/
def Calc.ensureCanPay (c : Calc) : Calc :=
  if c.data.hasCanPay then c else c.calculate_can_pay

/-- Model of `DataFrame.tail(90)`: the last `min(90, length)` rows. -/
def tail90 {α : Type} (l : List α) : List α := l.drop (l.length - 90)

/-- Dictionary returned by `calculate_temporal_metrics` (lines 99-105). -/
structure TemporalMetrics where
  pct_90 : ℚ
  pct_6m : ℚ
  cfa_score : ℚ
  total_days : ℕ
  biweekly_parcel : ℚ
deriving DecidableEq, Repr

/-- Model of `CFACalculator.calculate_temporal_metrics` (lines 77-105).
The method mutates `self` (it may add the `can_pay` column), so the updated
calculator state is returned alongside the metrics dictionary.  The three
rates are rounded to 4 decimal places in the returned dictionary only; the
weighted score is computed from the unrounded rates. -/
def Calc.calculate_temporal_metrics (c : Calc) : Calc × TemporalMetrics :=
  let c' := c.ensureCanPay
  let last_90_days := tail90 c'.data.rows
  let pct_90 : ℚ := (last_90_days.map Row.can_pay).sum / 90
  let total_days_6m := c'.data.rows.length
  let pct_6m : ℚ := (c'.data.rows.map Row.can_pay).sum / (total_days_6m : ℚ)
  let cfa_score : ℚ := pct_90 * (70/100) + pct_6m * (30/100)
  (c', { pct_90 := pyRound 4 pct_90
       , pct_6m := pyRound 4 pct_6m
       , cfa_score := pyRound 4 cfa_score
       , total_days := total_days_6m
       , biweekly_parcel := c'.biweekly_parcel })

/-- Loop of `_max_consecutive_ones` (lines 148-156) with its two mutable
variables `max_count` and `current_count` as accumulators. -/
def maxConsecutiveAux (maxCount currentCount : ℕ) : List ℚ → ℕ
  | [] => maxCount
  | v :: vs =>
      if v = 1 then maxConsecutiveAux (max maxCount (currentCount + 1)) (currentCount + 1) vs
      else maxConsecutiveAux maxCount 0 vs

/-- Model of `CFACalculator._max_consecutive_ones` (lines 146-156). -/
def maxConsecutiveOnes (arr : List ℚ) : ℕ := maxConsecutiveAux 0 0 arr

/-- Mean of a list of rationals, as computed by pandas `.mean()`
(sum divided by length; the engine only applies it to series of ≥ 90
values, so the empty case never arises). -/
def meanQ (l : List ℚ) : ℚ := l.sum / (l.length : ℚ)

/-- Minimum of a list of rationals, as computed by pandas `.min()`
(0 for the empty list, which never arises after validation). -/
def minQ (l : List ℚ) : ℚ :=
  match l with
  | [] => 0
  | x :: xs => xs.foldl min x

/-- Maximum of a list of rationals, as computed by pandas `.max()`
(0 for the empty list, which never arises after validation). -/
def maxQ (l : List ℚ) : ℚ :=
  match l with
  | [] => 0
  | x :: xs => xs.foldl max x

/-- Sample variance with the `n - 1` denominator, the square of what pandas
`.std()` computes. -/
def sampleVar (l : List ℚ) : ℚ :=
  ((l.map (fun x => (x - meanQ l) ^ 2)).sum) / ((l.length : ℚ) - 1)

/-- Dictionary `balance_stats` of `calculate_cfa` (lines 124-129). -/
structure BalanceStats where
  avg_balance : ℚ
  min_balance : ℚ
  max_balance : ℚ
  std_balance : ℚ
deriving DecidableEq, Repr

/-- Dictionary `net_stats` of `calculate_cfa` (lines 132-135). -/
structure NetStats where
  avg_daily_net : ℚ
  positive_days_pct : ℚ
deriving DecidableEq, Repr

/-- Result dictionary returned by `calculate_cfa` (lines 137-144). -/
structure CFAResult where
  pct_90 : ℚ
  pct_6m : ℚ
  cfa_score : ℚ
  total_days : ℕ
  biweekly_parcel : ℚ
  max_consecutive_can_pay_90d : ℕ
  balance_stats : BalanceStats
  net_stats : NetStats
  risk_tier : String
  recommendation : String
deriving DecidableEq, Repr

/-- Model of `CFACalculator._determine_risk_tier` (lines 158-167). -/
def determine_risk_tier (cfa_score : ℚ) : String :=
  if cfa_score ≥ 70/100 then "Tier 3 (Premium) - CFA 70-100%"
  else if cfa_score ≥ 60/100 then "Tier 2 (Standard) - CFA 60-69%"
  else if cfa_score ≥ 50/100 then "Tier 1 (Starter) - CFA 50-59%"
  else "Denied - CFA <50%"

/-- Model of `CFACalculator._get_recommendation` (lines 169-178). -/
def get_recommendation (cfa_score : ℚ) : String :=
  if cfa_score ≥ 70/100 then
    "APPROVE - Alta capacidad de pago. Elegible para Tier 3 ($200, 90 días)."
  else if cfa_score ≥ 60/100 then
    "APPROVE - Buena capacidad de pago. Elegible para Tier 2 ($150, 60 días)."
  else if cfa_score ≥ 50/100 then
    "CONDITIONAL - Capacidad marginal. Solo Tier 1 ($100, 30 días)."
  else
    "DENY - Capacidad insuficiente. Balance no puede cubrir parcels consistentemente."

/-- Model of `CFACalculator.calculate_cfa` (lines 107-144). -/
def Calc.calculate_cfa (c : Calc) : CFAResult :=
  let cm := c.calculate_temporal_metrics
  let c' := cm.1
  let metrics := cm.2
  let last_90 := tail90 c'.data.rows
  let can_pay_series := last_90.map Row.can_pay
  let max_consecutive := maxConsecutiveOnes can_pay_series
  let balances := c'.data.rows.map Row.daily_balance
  let nets := c'.data.rows.map Row.daily_net
  { pct_90 := metrics.pct_90
  , pct_6m := metrics.pct_6m
  , cfa_score := metrics.cfa_score
  , total_days := metrics.total_days
  , biweekly_parcel := metrics.biweekly_parcel
  , max_consecutive_can_pay_90d := max_consecutive
  , balance_stats :=
      { avg_balance := pyRound 2 (meanQ balances)
      , min_balance := pyRound 2 (minQ balances)
      , max_balance := pyRound 2 (maxQ balances)
      , std_balance := sqrtRound2 (sampleVar balances) }
  , net_stats :=
      { avg_daily_net := pyRound 2 (meanQ nets)
      , positive_days_pct :=
          pyRound 4 (((nets.countP (fun x => decide (0 < x))) : ℚ) / (c'.data.rows.length : ℚ)) }
  , risk_tier := determine_risk_tier metrics.cfa_score
  , recommendation := get_recommendation metrics.cfa_score }

/-- End-to-end scoring entry point: construct the calculator (which may fail
validation) and run `calculate_cfa` on it. -/
def score (f : Frame) (parcel : ℚ) : Except CFAError CFAResult :=
  (mkCalc f parcel).map Calc.calculate_cfa

/-- Column of per-row can-pay values a valid run effectively uses: the
caller-supplied `can_pay` column when it is present, the threshold
indicator otherwise. -/
def canPayCol (f : Frame) (parcel : ℚ) (r : Row) : ℚ :=
  if f.hasCanPay then r.can_pay else canPay parcel r

/-- Value of the `daily_net` column a valid run effectively uses: the
caller-supplied column when present, `daily_income - daily_expenses`
otherwise. -/
def netVal (f : Frame) (r : Row) : ℚ :=
  if f.hasNet then r.daily_net else r.daily_income - r.daily_expenses

/-- Proposition: the list contains a run of `n` consecutive values equal
to `1` (a contiguous block `[1, 1, …, 1]` of length `n`). -/
def hasRun (l : List ℚ) (n : ℕ) : Prop := (List.replicate n (1 : ℚ)).IsInfix l

/-! Basic bounds for half-to-even rounding. -/

theorem roundHalfEven_nonneg {q : ℚ} (h : 0 ≤ q) : 0 ≤ roundHalfEven q := by
  have hf : 0 ≤ ⌊q⌋ := Int.floor_nonneg.mpr h
  unfold roundHalfEven
  split_ifs <;> omega

theorem roundHalfEven_le_int {q : ℚ} {B : ℤ} (h : q ≤ B) : roundHalfEven q ≤ B := by
  have hfB : ⌊q⌋ ≤ B := by
    have := Int.floor_le_floor h
    simpa using this
  have hfq : (⌊q⌋ : ℚ) ≤ q := Int.floor_le q
  unfold roundHalfEven
  split_ifs with h1 h2 h3
  · exact hfB
  · -- here 1/2 < q - ⌊q⌋, so ⌊q⌋ < B
    have : (⌊q⌋ : ℚ) < (B : ℚ) := by linarith
    have : ⌊q⌋ < B := by exact_mod_cast this
    omega
  · exact hfB
  · -- tie: q = ⌊q⌋ + 1/2 ≤ B, so ⌊q⌋ < B
    have hq : q - (⌊q⌋ : ℚ) = 1/2 := le_antisymm (not_lt.mp h2) (not_lt.mp h1)
    have : (⌊q⌋ : ℚ) < (B : ℚ) := by linarith
    have : ⌊q⌋ < B := by exact_mod_cast this
    omega

theorem pyRound_nonneg (n : ℕ) {q : ℚ} (h : 0 ≤ q) : 0 ≤ pyRound n q := by
  unfold pyRound
  apply div_nonneg _ (by positivity)
  have : (0 : ℤ) ≤ roundHalfEven (q * 10 ^ n) :=
    roundHalfEven_nonneg (by positivity)
  exact_mod_cast this

theorem pyRound_le_one (n : ℕ) {q : ℚ} (h : q ≤ 1) : pyRound n q ≤ 1 := by
  unfold pyRound
  rw [div_le_one (by positivity)]
  have hb : q * 10 ^ n ≤ ((10 ^ n : ℤ) : ℚ) := by
    push_cast
    nlinarith [pow_pos (show (0:ℚ) < 10 by norm_num) n]
  have := roundHalfEven_le_int hb
  exact_mod_cast this

/-! Helper lemmas about `tail90` and mapping. -/

theorem tail90_map {α β : Type} (g : α → β) (l : List α) :
    (tail90 l).map g = tail90 (l.map g) := by
  unfold tail90
  rw [List.map_drop, List.length_map]

theorem tail90_length {α : Type} {l : List α} (h : 90 ≤ l.length) :
    (tail90 l).length = 90 := by
  unfold tail90
  rw [List.length_drop]
  omega

/-! Minimum and maximum of a list via `foldl`, and their invariance under
permutation (needed because the engine computes statistics on the sorted
series while the specification states them over the raw series). -/

theorem foldl_min_le_init : ∀ (l : List ℚ) (a : ℚ), l.foldl min a ≤ a := by
  intro l
  induction l with
  | nil => intro a; simp
  | cons b t ih => intro a; exact le_trans (ih (min a b)) (min_le_left a b)

theorem foldl_min_le_mem : ∀ (l : List ℚ) (a x : ℚ), x ∈ l → l.foldl min a ≤ x := by
  intro l
  induction l with
  | nil => intro a x hx; simp at hx
  | cons b t ih =>
      intro a x hx
      rcases List.mem_cons.mp hx with rfl | hx
      · exact le_trans (foldl_min_le_init t (min a x)) (min_le_right a x)
      · exact ih (min a b) x hx

theorem foldl_min_mem : ∀ (l : List ℚ) (a : ℚ), l.foldl min a ∈ a :: l := by
  intro l
  induction l with
  | nil => intro a; simp
  | cons b t ih =>
      intro a
      have h := ih (min a b)
      rcases List.mem_cons.mp h with h | h
      · rcases min_choice a b with h' | h'
        · exact List.mem_cons.mpr (Or.inl (h.trans h'))
        · exact List.mem_cons.mpr (Or.inr (List.mem_cons.mpr (Or.inl (h.trans h'))))
      · exact List.mem_cons.mpr (Or.inr (List.mem_cons.mpr (Or.inr h)))

theorem minQ_mem {l : List ℚ} (h : l ≠ []) : minQ l ∈ l := by
  cases l with
  | nil => exact absurd rfl h
  | cons a t => exact foldl_min_mem t a

theorem minQ_le {l : List ℚ} {x : ℚ} (hx : x ∈ l) : minQ l ≤ x := by
  cases l with
  | nil => simp at hx
  | cons a t =>
      rcases List.mem_cons.mp hx with rfl | hx
      · exact foldl_min_le_init t x
      · exact foldl_min_le_mem t a x hx

theorem minQ_perm {l₁ l₂ : List ℚ} (h : List.Perm l₁ l₂) : minQ l₁ = minQ l₂ := by
  cases l₁ with
  | nil =>
      have : l₂ = [] := h.nil_eq.symm
      rw [this]
  | cons a t =>
      have h₁ : (a :: t) ≠ [] := by simp
      have h₂ : l₂ ≠ [] := by
        intro hnil
        rw [hnil] at h
        simpa using h.length_eq
      apply le_antisymm
      · exact minQ_le (h.symm.subset (minQ_mem h₂))
      · exact minQ_le (h.subset (minQ_mem h₁))

theorem foldl_max_le_init : ∀ (l : List ℚ) (a : ℚ), a ≤ l.foldl max a := by
  intro l
  induction l with
  | nil => intro a; simp
  | cons b t ih => intro a; exact le_trans (le_max_left a b) (ih (max a b))

theorem foldl_max_le_mem : ∀ (l : List ℚ) (a x : ℚ), x ∈ l → x ≤ l.foldl max a := by
  intro l
  induction l with
  | nil => intro a x hx; simp at hx
  | cons b t ih =>
      intro a x hx
      rcases List.mem_cons.mp hx with rfl | hx
      · exact le_trans (le_max_right a x) (foldl_max_le_init t (max a x))
      · exact ih (max a b) x hx

theorem foldl_max_mem : ∀ (l : List ℚ) (a : ℚ), l.foldl max a ∈ a :: l := by
  intro l
  induction l with
  | nil => intro a; simp
  | cons b t ih =>
      intro a
      have h := ih (max a b)
      rcases List.mem_cons.mp h with h | h
      · rcases max_choice a b with h' | h'
        · exact List.mem_cons.mpr (Or.inl (h.trans h'))
        · exact List.mem_cons.mpr (Or.inr (List.mem_cons.mpr (Or.inl (h.trans h'))))
      · exact List.mem_cons.mpr (Or.inr (List.mem_cons.mpr (Or.inr h)))

theorem maxQ_mem {l : List ℚ} (h : l ≠ []) : maxQ l ∈ l := by
  cases l with
  | nil => exact absurd rfl h
  | cons a t => exact foldl_max_mem t a

theorem maxQ_le {l : List ℚ} {x : ℚ} (hx : x ∈ l) : x ≤ maxQ l := by
  cases l with
  | nil => simp at hx
  | cons a t =>
      rcases List.mem_cons.mp hx with rfl | hx
      · exact foldl_max_le_init t x
      · exact foldl_max_le_mem t a x hx

theorem maxQ_perm {l₁ l₂ : List ℚ} (h : List.Perm l₁ l₂) : maxQ l₁ = maxQ l₂ := by
  cases l₁ with
  | nil =>
      have : l₂ = [] := h.nil_eq.symm
      rw [this]
  | cons a t =>
      have h₁ : (a :: t) ≠ [] := by simp
      have h₂ : l₂ ≠ [] := by
        intro hnil
        rw [hnil] at h
        simpa using h.length_eq
      apply le_antisymm
      · exact maxQ_le (h.subset (maxQ_mem h₁))
      · exact maxQ_le (h.symm.subset (maxQ_mem h₂))

theorem meanQ_perm {l₁ l₂ : List ℚ} (h : List.Perm l₁ l₂) : meanQ l₁ = meanQ l₂ := by
  unfold meanQ
  rw [h.sum_eq, h.length_eq]

theorem sampleVar_perm {l₁ l₂ : List ℚ} (h : List.Perm l₁ l₂) : sampleVar l₁ = sampleVar l₂ := by
  unfold sampleVar
  rw [meanQ_perm h, (h.map _).sum_eq, h.length_eq]

/-! Correctness of the streak loop: `maxConsecutiveOnes` computes the length
of the longest contiguous block of `1`s, in the sense of the `hasRun`
characterisation. -/

/-- Length of the maximal all-`1` block at the head of the list. -/
def leadingOnes : List ℚ → ℕ
  | [] => 0
  | v :: vs => if v = 1 then leadingOnes vs + 1 else 0

/-- Longest run of `1`s in `1^c ++ l`, head run already `c` long: the
functional shape of the streak loop's invariant. -/
def bestWith (c : ℕ) : List ℚ → ℕ
  | [] => c
  | v :: vs => if v = 1 then bestWith (c + 1) vs else max c (bestWith 0 vs)

theorem bestWith_ge (c : ℕ) (l : List ℚ) : c ≤ bestWith c l := by
  induction l generalizing c with
  | nil => simp [bestWith]
  | cons v vs ih =>
      simp only [bestWith]
      split
      · exact le_trans (Nat.le_succ c) (ih (c + 1))
      · exact le_max_left _ _

theorem maxConsecutiveAux_eq (l : List ℚ) :
    ∀ m c, c ≤ m → maxConsecutiveAux m c l = max m (bestWith c l) := by
  induction l with
  | nil => intro m c h; simp only [maxConsecutiveAux, bestWith]; omega
  | cons v vs ih =>
      intro m c h
      simp only [maxConsecutiveAux, bestWith]
      split
      · rw [ih (max m (c + 1)) (c + 1) (le_max_right _ _)]
        have := bestWith_ge (c + 1) vs
        omega
      · rw [ih m 0 (Nat.zero_le m)]
        omega

theorem maxConsecutiveOnes_eq (l : List ℚ) : maxConsecutiveOnes l = bestWith 0 l := by
  unfold maxConsecutiveOnes
  rw [maxConsecutiveAux_eq l 0 0 le_rfl]
  omega

theorem bestWith_le (c : ℕ) (l : List ℚ) : bestWith c l ≤ c + l.length := by
  induction l generalizing c with
  | nil => simp [bestWith]
  | cons v vs ih =>
      simp only [bestWith, List.length_cons]
      split
      · have := ih (c + 1)
        omega
      · have := ih 0
        omega

theorem leadingOnes_head_run (l : List ℚ) :
    (List.replicate (leadingOnes l) (1 : ℚ)).IsPrefix l := by
  induction l with
  | nil => simp [leadingOnes]
  | cons v vs ih =>
      simp only [leadingOnes]
      split_ifs with hv
      · subst hv
        obtain ⟨t, ht⟩ := ih
        exact ⟨t, by rw [List.replicate_succ, List.cons_append, ht]⟩
      · simp

theorem prefix_replicate_le {l : List ℚ} {n : ℕ}
    (h : (List.replicate n (1 : ℚ)).IsPrefix l) : n ≤ leadingOnes l := by
  induction l generalizing n with
  | nil =>
      have := List.prefix_nil.mp h
      have : n = 0 := by simpa using congrArg List.length this
      omega
  | cons v vs ih =>
      cases n with
      | zero => exact Nat.zero_le _
      | succ k =>
          rw [List.replicate_succ] at h
          rw [List.cons_prefix_cons] at h
          obtain ⟨hv, hrest⟩ := h
          simp only [leadingOnes, if_pos hv.symm]
          exact Nat.succ_le_succ (ih hrest)

theorem infix_cons_cases {l₁ l₂ : List ℚ} {a : ℚ} (h : l₁.IsInfix (a :: l₂)) :
    l₁.IsPrefix (a :: l₂) ∨ l₁.IsInfix l₂ := by
  obtain ⟨s, t, hst⟩ := h
  cases s with
  | nil => exact Or.inl ⟨t, by simpa using hst⟩
  | cons x s' =>
      simp only [List.cons_append] at hst
      injection hst with h1 h2
      exact Or.inr ⟨s', t, h2⟩

theorem le_bestWith_leading (c : ℕ) (l : List ℚ) : c + leadingOnes l ≤ bestWith c l := by
  induction l generalizing c with
  | nil => simp [leadingOnes, bestWith]
  | cons v vs ih =>
      simp only [leadingOnes, bestWith]
      split_ifs with hv
      · have := ih (c + 1)
        omega
      · omega

theorem hasRun_le_bestWith : ∀ (l : List ℚ) (c n : ℕ), hasRun l n → n ≤ bestWith c l := by
  intro l
  induction l with
  | nil =>
      intro c n h
      have := List.eq_nil_of_infix_nil h
      have : n = 0 := by simpa using congrArg List.length this
      omega
  | cons v vs ih =>
      intro c n h
      rcases infix_cons_cases h with hp | hi
      · by_cases hv : v = 1
        · subst hv
          have h1 : n ≤ leadingOnes (1 :: vs) := prefix_replicate_le hp
          have h2 := le_bestWith_leading c (1 :: vs)
          omega
        · cases n with
          | zero => exact Nat.zero_le _
          | succ k =>
              exfalso
              rw [List.replicate_succ, List.cons_prefix_cons] at hp
              exact hv hp.1.symm
      · simp only [bestWith]
        split
        · exact ih (c + 1) n hi
        · exact le_trans (ih 0 n hi) (le_max_right _ _)

theorem bestWith_spec (c : ℕ) (l : List ℚ) :
    bestWith c l = c + leadingOnes l ∨ hasRun l (bestWith c l) := by
  induction l generalizing c with
  | nil => left; simp [bestWith, leadingOnes]
  | cons v vs ih =>
      simp only [bestWith, leadingOnes]
      split_ifs with hv
      · rcases ih (c + 1) with h | h
        · left; omega
        · right
          subst hv
          exact List.infix_cons h
      · by_cases hc : bestWith 0 vs ≤ c
        · rw [Nat.max_eq_left hc]
          left
          omega
        · rw [Nat.max_eq_right (le_of_not_le hc)]
          right
          rcases ih 0 with h | h
          · rw [h]
            simpa using List.infix_cons (leadingOnes_head_run vs).isInfix
          · exact List.infix_cons h

theorem hasRun_maxConsecutiveOnes (l : List ℚ) : hasRun l (maxConsecutiveOnes l) := by
  rw [maxConsecutiveOnes_eq]
  rcases bestWith_spec 0 l with h | h
  · rw [h]
    simpa using (leadingOnes_head_run l).isInfix
  · exact h

theorem hasRun_le_maxConsecutiveOnes {l : List ℚ} {n : ℕ} (h : hasRun l n) :
    n ≤ maxConsecutiveOnes l := by
  rw [maxConsecutiveOnes_eq]
  exact hasRun_le_bestWith l 0 n h

theorem maxConsecutiveOnes_le_length (l : List ℚ) : maxConsecutiveOnes l ≤ l.length := by
  rw [maxConsecutiveOnes_eq]
  simpa using bestWith_le 0 l

theorem maxConsecutiveOnes_all_ones {l : List ℚ} (h : ∀ x ∈ l, x = 1) :
    maxConsecutiveOnes l = l.length := by
  apply le_antisymm (maxConsecutiveOnes_le_length l)
  apply hasRun_le_maxConsecutiveOnes
  have : l = List.replicate l.length (1 : ℚ) := List.eq_replicate_length.mpr h
  rw [hasRun, ← this]

theorem maxConsecutiveOnes_no_ones {l : List ℚ} (h : ∀ x ∈ l, x ≠ 1) :
    maxConsecutiveOnes l = 0 := by
  cases hm : maxConsecutiveOnes l with
  | zero => rfl
  | succ k =>
      exfalso
      have hr := hasRun_maxConsecutiveOnes l
      rw [hm] at hr
      have h1 : (1 : ℚ) ∈ l := hr.subset (by simp [List.mem_replicate])
      exact h 1 h1 rfl

/-! Uniqueness of the date-sorted arrangement when dates are pairwise
distinct: the basis for permutation invariance of the whole pipeline. -/

theorem sorted_perm_nodup_eq (l₁ : List Row) :
    ∀ l₂ : List Row, List.Perm l₁ l₂ → l₁.Sorted rowLe → l₂.Sorted rowLe →
      (l₁.map Row.date).Nodup → l₁ = l₂ := by
  induction l₁ with
  | nil => intro l₂ h _ _ _; exact h.nil_eq
  | cons a t ih =>
      intro l₂ h s₁ s₂ nd
      cases l₂ with
      | nil => simpa using h.length_eq
      | cons b t₂ =>
          have hab : a = b := by
            have hamem : a ∈ b :: t₂ := h.subset (List.mem_cons_self a t)
            rcases List.mem_cons.mp hamem with h1 | h1
            · exact h1
            · have hbmem : b ∈ a :: t := h.symm.subset (List.mem_cons_self b t₂)
              rcases List.mem_cons.mp hbmem with h2 | h2
              · exact h2.symm
              · exfalso
                have h3 : rowLe a b := (List.sorted_cons.mp s₁).1 b h2
                have h4 : rowLe b a := (List.sorted_cons.mp s₂).1 a h1
                have hdate : a.date = b.date := le_antisymm h3 h4
                have hmem : a.date ∈ t.map Row.date := by
                  rw [hdate]
                  exact List.mem_map_of_mem Row.date h2
                have hnd : a.date ∉ t.map Row.date := by
                  simp only [List.map_cons, List.nodup_cons] at nd
                  exact nd.1
                exact hnd hmem
          subst hab
          have ht : List.Perm t t₂ := h.cons_inv
          have hnd' : (t.map Row.date).Nodup := by
            simp only [List.map_cons, List.nodup_cons] at nd
            exact nd.2
          rw [ih t₂ ht (List.sorted_cons.mp s₁).2 (List.sorted_cons.mp s₂).2 hnd']

theorem sortByDate_eq_of_perm {l₁ l₂ : List Row} (h : List.Perm l₁ l₂)
    (hnd : (l₁.map Row.date).Nodup) : sortByDate l₁ = sortByDate l₂ := by
  apply sorted_perm_nodup_eq
  · exact ((List.perm_insertionSort rowLe l₁).trans h).trans (List.perm_insertionSort rowLe l₂).symm
  · exact List.sorted_insertionSort rowLe l₁
  · exact List.sorted_insertionSort rowLe l₂
  · have hp : List.Perm ((sortByDate l₁).map Row.date) (l₁.map Row.date) :=
      (List.perm_insertionSort rowLe l₁).map Row.date
    exact hp.nodup_iff.mpr hnd

/-! Unfolding the pipeline on a frame that passes validation. -/

/-- Rows held by the calculator after a successful `__init__`: sorted by
date, with `daily_net` derived when the column was absent. -/
def initRows (f : Frame) : List Row :=
  if f.hasNet then sortByDate f.rows else (sortByDate f.rows).map netFix

/-- Calculator state after a successful `__init__` on a frame whose four
required columns are present. -/
def initCalc (f : Frame) (p : ℚ) : Calc :=
  ⟨⟨initRows f, true, true, true, true, true, f.hasCanPay⟩, p⟩

theorem mkCalc_ok (f : Frame) (p : ℚ) (hd : f.hasDate = true) (hb : f.hasBalance = true)
    (hi : f.hasIncome = true) (he : f.hasExpenses = true) (hn : 90 ≤ f.rows.length) :
    mkCalc f p = Except.ok (initCalc f p) := by
  have hlen : ¬ ((sortByDate f.rows).length < 90) := by
    rw [sortByDate, List.length_insertionSort]
    omega
  have hlen2 : ¬ (((sortByDate f.rows).map netFix).length < 90) := by
    rw [List.length_map]
    exact hlen
  cases hN : f.hasNet with
  | false =>
      simp [mkCalc, initCalc, initRows, validateData, missingRequired, hd, hb, hi, he, hN,
        hlen2, sortByDate, List.length_insertionSort, hn]
  | true =>
      simp [mkCalc, initCalc, initRows, validateData, missingRequired, hd, hb, hi, he, hN,
        hlen, sortByDate, List.length_insertionSort, hn]

/-- Rows in play after the `can_pay` guard of `calculate_temporal_metrics`:
the initial rows when the column was supplied, otherwise the initial rows
with the threshold indicator written into `can_pay`. -/
def runRows (f : Frame) (p : ℚ) : List Row :=
  if f.hasCanPay then initRows f
  else (initRows f).map (fun r => { r with can_pay := canPay p r })

theorem ensureCanPay_initCalc (f : Frame) (p : ℚ) :
    (initCalc f p).ensureCanPay = ⟨⟨runRows f p, true, true, true, true, true, true⟩, p⟩ := by
  cases hC : f.hasCanPay with
  | false => simp [Calc.ensureCanPay, initCalc, Calc.calculate_can_pay, runRows, hC]
  | true => simp [Calc.ensureCanPay, initCalc, runRows, hC]

theorem runRows_map_can_pay (f : Frame) (p : ℚ) :
    (runRows f p).map Row.can_pay = (sortByDate f.rows).map (canPayCol f p) := by
  unfold runRows initRows canPayCol
  cases hC : f.hasCanPay <;> cases hN : f.hasNet <;>
    simp only [if_true, if_false, Bool.false_eq_true, Bool.true_eq_false, List.map_map] <;>
    rfl

theorem runRows_map_balance (f : Frame) (p : ℚ) :
    (runRows f p).map Row.daily_balance = (sortByDate f.rows).map Row.daily_balance := by
  unfold runRows initRows
  cases hC : f.hasCanPay <;> cases hN : f.hasNet <;>
    simp only [if_true, if_false, Bool.false_eq_true, Bool.true_eq_false, List.map_map] <;>
    rfl

theorem runRows_map_net (f : Frame) (p : ℚ) :
    (runRows f p).map Row.daily_net = (sortByDate f.rows).map (netVal f) := by
  unfold runRows initRows netVal
  cases hC : f.hasCanPay <;> cases hN : f.hasNet <;>
    simp only [if_true, if_false, Bool.false_eq_true, Bool.true_eq_false, List.map_map] <;>
    rfl

theorem runRows_length (f : Frame) (p : ℚ) :
    (runRows f p).length = f.rows.length := by
  unfold runRows initRows sortByDate
  cases hC : f.hasCanPay <;> cases hN : f.hasNet <;>
    simp [List.length_insertionSort]

theorem window_can_pay (f : Frame) (p : ℚ) :
    (tail90 (runRows f p)).map Row.can_pay = (tail90 (sortByDate f.rows)).map (canPayCol f p) := by
  rw [tail90_map, runRows_map_can_pay, ← tail90_map]

theorem temporal_initCalc (f : Frame) (p : ℚ) :
    (initCalc f p).calculate_temporal_metrics =
      (⟨⟨runRows f p, true, true, true, true, true, true⟩, p⟩,
       { pct_90 := pyRound 4 (((tail90 (sortByDate f.rows)).map (canPayCol f p)).sum / 90)
       , pct_6m := pyRound 4 ((f.rows.map (canPayCol f p)).sum / (f.rows.length : ℚ))
       , cfa_score := pyRound 4
           ((((tail90 (sortByDate f.rows)).map (canPayCol f p)).sum / 90) * (70/100)
             + ((f.rows.map (canPayCol f p)).sum / (f.rows.length : ℚ)) * (30/100))
       , total_days := f.rows.length
       , biweekly_parcel := p }) := by
  have hsum : ((sortByDate f.rows).map (canPayCol f p)).sum = (f.rows.map (canPayCol f p)).sum :=
    ((List.perm_insertionSort rowLe f.rows).map (canPayCol f p)).sum_eq
  simp only [Calc.calculate_temporal_metrics]
  rw [ensureCanPay_initCalc]
  dsimp only
  rw [window_can_pay, runRows_map_can_pay, runRows_length, hsum]

theorem calculate_cfa_initCalc (f : Frame) (p : ℚ) :
    (initCalc f p).calculate_cfa =
      { pct_90 := pyRound 4 (((tail90 (sortByDate f.rows)).map (canPayCol f p)).sum / 90)
      , pct_6m := pyRound 4 ((f.rows.map (canPayCol f p)).sum / (f.rows.length : ℚ))
      , cfa_score := pyRound 4
          ((((tail90 (sortByDate f.rows)).map (canPayCol f p)).sum / 90) * (70/100)
            + ((f.rows.map (canPayCol f p)).sum / (f.rows.length : ℚ)) * (30/100))
      , total_days := f.rows.length
      , biweekly_parcel := p
      , max_consecutive_can_pay_90d :=
          maxConsecutiveOnes ((tail90 (sortByDate f.rows)).map (canPayCol f p))
      , balance_stats :=
          { avg_balance := pyRound 2 (meanQ (f.rows.map Row.daily_balance))
          , min_balance := pyRound 2 (minQ (f.rows.map Row.daily_balance))
          , max_balance := pyRound 2 (maxQ (f.rows.map Row.daily_balance))
          , std_balance := sqrtRound2 (sampleVar (f.rows.map Row.daily_balance)) }
      , net_stats :=
          { avg_daily_net := pyRound 2 (meanQ (f.rows.map (netVal f)))
          , positive_days_pct := pyRound 4
              ((((f.rows.map (netVal f)).countP (fun x => decide (0 < x))) : ℚ)
                / (f.rows.length : ℚ)) }
      , risk_tier := determine_risk_tier (pyRound 4
          ((((tail90 (sortByDate f.rows)).map (canPayCol f p)).sum / 90) * (70/100)
            + ((f.rows.map (canPayCol f p)).sum / (f.rows.length : ℚ)) * (30/100)))
      , recommendation := get_recommendation (pyRound 4
          ((((tail90 (sortByDate f.rows)).map (canPayCol f p)).sum / 90) * (70/100)
            + ((f.rows.map (canPayCol f p)).sum / (f.rows.length : ℚ)) * (30/100))) } := by
  have hperm : List.Perm (sortByDate f.rows) f.rows := List.perm_insertionSort rowLe f.rows
  have hbal : List.Perm ((runRows f p).map Row.daily_balance) (f.rows.map Row.daily_balance) := by
    rw [runRows_map_balance]
    exact hperm.map Row.daily_balance
  have hnet : List.Perm ((runRows f p).map Row.daily_net) (f.rows.map (netVal f)) := by
    rw [runRows_map_net]
    exact hperm.map (netVal f)
  simp only [Calc.calculate_cfa]
  rw [temporal_initCalc]
  dsimp only
  rw [window_can_pay, meanQ_perm hbal, minQ_perm hbal, maxQ_perm hbal, sampleVar_perm hbal,
    meanQ_perm hnet, hnet.countP_eq, runRows_length]

theorem score_ok (f : Frame) (p : ℚ) (hd : f.hasDate = true) (hb : f.hasBalance = true)
    (hi : f.hasIncome = true) (he : f.hasExpenses = true) (hn : 90 ≤ f.rows.length) :
    score f p = Except.ok ((initCalc f p).calculate_cfa) := by
  simp only [score]
  rw [mkCalc_ok f p hd hb hi he hn]
  rfl

theorem canPayCol_false {f : Frame} (hcp : f.hasCanPay = false) (p : ℚ) :
    canPayCol f p = canPay p := by
  funext r
  simp [canPayCol, hcp]

theorem canPayCol_true {f : Frame} (hcp : f.hasCanPay = true) (p : ℚ) :
    canPayCol f p = Row.can_pay := by
  funext r
  simp [canPayCol, hcp]

theorem canPay_sum_nonneg (p : ℚ) (l : List Row) : 0 ≤ (l.map (canPay p)).sum := by
  apply List.sum_nonneg
  intro x hx
  obtain ⟨r, _, rfl⟩ := List.mem_map.mp hx
  unfold canPay
  split <;> norm_num

theorem canPay_sum_le (p : ℚ) (l : List Row) : (l.map (canPay p)).sum ≤ (l.length : ℚ) := by
  have h := List.sum_le_card_nsmul (l.map (canPay p)) 1 ?_
  · rw [List.length_map] at h
    simpa [nsmul_eq_mul] using h
  · intro x hx
    obtain ⟨r, _, rfl⟩ := List.mem_map.mp hx
    unfold canPay
    split <;> norm_num

theorem canPay_sum_eq_countP (p : ℚ) (l : List Row) :
    (l.map (canPay p)).sum = ((l.countP (fun r => decide (r.daily_balance ≥ p))) : ℚ) := by
  induction l with
  | nil => simp
  | cons r t ih =>
      simp only [List.map_cons, List.sum_cons, List.countP_cons, ih, canPay]
      by_cases h : r.daily_balance ≥ p <;>
        simp [h, Nat.cast_add] <;>
        ring

/-! Concrete inputs used by witnesses and counterexamples. -/

/-- Synthetic row for a valid 90-day series: distinct consecutive dates,
constant balance 100, income 10, expenses 5. -/
def demoRow (i : ℕ) : Row :=
  { date := (i : ℤ), daily_balance := 100, daily_income := 10
  , daily_expenses := 5, daily_net := 0, can_pay := 0 }

/-- Valid 90-day frame with all required columns and no optional columns. -/
def demoFrame : Frame := ⟨(List.range 90).map demoRow, true, true, true, true, false, false⟩

/-- Frame with only 89 days of history. -/
def shortFrame : Frame := ⟨(List.range 89).map demoRow, true, true, true, true, false, false⟩

/-- 90-day frame whose `daily_income` column is absent. -/
def noIncomeFrame : Frame := ⟨(List.range 90).map demoRow, true, true, false, true, false, false⟩

/-- Row carrying a caller-supplied `can_pay` value (alternating 1/0). -/
def cpRow (i : ℕ) : Row :=
  { date := (i : ℤ), daily_balance := 100, daily_income := 10
  , daily_expenses := 5, daily_net := 0, can_pay := if i % 2 = 0 then 1 else 0 }

/-- Valid 90-day frame that already contains a `can_pay` column. -/
def cpFrame : Frame := ⟨(List.range 90).map cpRow, true, true, true, true, false, true⟩

/-- Row for the rounding counterexample: balance covers a parcel of 50 only
on the six days 85..90. -/
def cexRow (i : ℕ) : Row :=
  { date := (i : ℤ), daily_balance := if 85 ≤ i then 100 else 10, daily_income := 10
  , daily_expenses := 5, daily_net := 0, can_pay := 0 }

/-- Valid 91-day frame with 6 affordable days, all inside the 90-day window:
the raw rates are 6/90 and 6/91, whose individually rounded values recombine
to a different 4-decimal score than the unrounded combination. -/
def cexFrame : Frame := ⟨(List.range 91).map cexRow, true, true, true, true, false, false⟩

/-! Claims. -/

/-- C1: on every valid input (≥ 90 records, required fields present, no
caller-supplied `can_pay` column, positive parcel), the engine computes
`pct_90` as the sum of `can_pay` over exactly the last 90 records in
date-ascending order divided by 90, `pct_6m` as the sum of `can_pay` over
all records divided by the series length, and `cfa_score` as
`round(0.70 * pct_90 + 0.30 * pct_6m, 4)`, where the rounding to 4 decimal
places is applied only at the output and the unrounded rates are used
inside the weighted combination. -/
theorem claim_C1 (f : Frame) (p : ℚ)
    (hd : f.hasDate = true) (hb : f.hasBalance = true) (hi : f.hasIncome = true)
    (he : f.hasExpenses = true) (hcp : f.hasCanPay = false)
    (hn : 90 ≤ f.rows.length) (hp : 0 < p) :
    ∃ r : CFAResult, score f p = Except.ok r
      ∧ r.pct_90 = pyRound 4 (((tail90 (sortByDate f.rows)).map (canPay p)).sum / 90)
      ∧ r.pct_6m = pyRound 4 ((f.rows.map (canPay p)).sum / (f.rows.length : ℚ))
      ∧ r.cfa_score = pyRound 4
          ((((tail90 (sortByDate f.rows)).map (canPay p)).sum / 90) * (70/100)
            + ((f.rows.map (canPay p)).sum / (f.rows.length : ℚ)) * (30/100)) := by
  refine ⟨(initCalc f p).calculate_cfa, score_ok f p hd hb hi he hn, ?_, ?_, ?_⟩ <;>
    rw [calculate_cfa_initCalc, canPayCol_false hcp]

theorem claim_C1_witness :
    ∃ r : CFAResult, score demoFrame 50 = Except.ok r
      ∧ r.pct_90 = pyRound 4 (((tail90 (sortByDate demoFrame.rows)).map (canPay 50)).sum / 90)
      ∧ r.pct_6m = pyRound 4 ((demoFrame.rows.map (canPay 50)).sum / (demoFrame.rows.length : ℚ))
      ∧ r.cfa_score = pyRound 4
          ((((tail90 (sortByDate demoFrame.rows)).map (canPay 50)).sum / 90) * (70/100)
            + ((demoFrame.rows.map (canPay 50)).sum / (demoFrame.rows.length : ℚ)) * (30/100)) :=
  claim_C1 demoFrame 50 rfl rfl rfl rfl rfl (by decide) (by norm_num)

/-- C2: for every `cfa_score` in `[0, 1]`, the tier classifier and the
recommendation generator each land in exactly one of four buckets with
inclusive lower bounds (Tier 3 for score ≥ 0.70, Tier 2 for `[0.60, 0.70)`,
Tier 1 for `[0.50, 0.60)`, Denied below 0.50), both are functions of the
score alone, and tier and recommendation always land in the same bucket. -/
theorem claim_C2 (s : ℚ) (h0 : 0 ≤ s) (h1 : s ≤ 1) :
    (determine_risk_tier s = "Tier 3 (Premium) - CFA 70-100%" ↔ 70/100 ≤ s)
    ∧ (determine_risk_tier s = "Tier 2 (Standard) - CFA 60-69%" ↔ 60/100 ≤ s ∧ s < 70/100)
    ∧ (determine_risk_tier s = "Tier 1 (Starter) - CFA 50-59%" ↔ 50/100 ≤ s ∧ s < 60/100)
    ∧ (determine_risk_tier s = "Denied - CFA <50%" ↔ s < 50/100)
    ∧ (get_recommendation s =
        "APPROVE - Alta capacidad de pago. Elegible para Tier 3 ($200, 90 días)." ↔ 70/100 ≤ s)
    ∧ (get_recommendation s =
        "APPROVE - Buena capacidad de pago. Elegible para Tier 2 ($150, 60 días)." ↔
          60/100 ≤ s ∧ s < 70/100)
    ∧ (get_recommendation s =
        "CONDITIONAL - Capacidad marginal. Solo Tier 1 ($100, 30 días)." ↔
          50/100 ≤ s ∧ s < 60/100)
    ∧ (get_recommendation s =
        "DENY - Capacidad insuficiente. Balance no puede cubrir parcels consistentemente." ↔
          s < 50/100) := by
  unfold determine_risk_tier get_recommendation
  split_ifs with hA hB hC <;>
    refine ⟨?_, ?_, ?_, ?_, ?_, ?_, ?_, ?_⟩ <;>
    simp_all <;>
    first
      | linarith
      | (intro h; linarith)
      | (constructor <;> linarith)

theorem claim_C2_witness :
    (determine_risk_tier (85/100) = "Tier 3 (Premium) - CFA 70-100%" ↔ 70/100 ≤ (85/100 : ℚ))
    ∧ (determine_risk_tier (85/100) = "Tier 2 (Standard) - CFA 60-69%" ↔
        60/100 ≤ (85/100 : ℚ) ∧ (85/100 : ℚ) < 70/100)
    ∧ (determine_risk_tier (85/100) = "Tier 1 (Starter) - CFA 50-59%" ↔
        50/100 ≤ (85/100 : ℚ) ∧ (85/100 : ℚ) < 60/100)
    ∧ (determine_risk_tier (85/100) = "Denied - CFA <50%" ↔ (85/100 : ℚ) < 50/100)
    ∧ (get_recommendation (85/100) =
        "APPROVE - Alta capacidad de pago. Elegible para Tier 3 ($200, 90 días)." ↔
          70/100 ≤ (85/100 : ℚ))
    ∧ (get_recommendation (85/100) =
        "APPROVE - Buena capacidad de pago. Elegible para Tier 2 ($150, 60 días)." ↔
          60/100 ≤ (85/100 : ℚ) ∧ (85/100 : ℚ) < 70/100)
    ∧ (get_recommendation (85/100) =
        "CONDITIONAL - Capacidad marginal. Solo Tier 1 ($100, 30 días)." ↔
          50/100 ≤ (85/100 : ℚ) ∧ (85/100 : ℚ) < 60/100)
    ∧ (get_recommendation (85/100) =
        "DENY - Capacidad insuficiente. Balance no puede cubrir parcels consistentemente." ↔
          (85/100 : ℚ) < 50/100) :=
  claim_C2 (85/100) (by norm_num) (by norm_num)

/-- C3: for every series with all required columns present, scoring fails
with the insufficient-history error (and produces no result) whenever the
record count is below 90, and succeeds in producing a complete result at
exactly 90 records. -/
theorem claim_C3 (f : Frame) (p : ℚ)
    (hd : f.hasDate = true) (hb : f.hasBalance = true) (hi : f.hasIncome = true)
    (he : f.hasExpenses = true) :
    (f.rows.length < 90 →
      score f p = Except.error (CFAError.insufficientHistory f.rows.length))
    ∧ (f.rows.length = 90 → ∃ r : CFAResult, score f p = Except.ok r) := by
  constructor
  · intro hlt
    have hlen : (sortByDate f.rows).length < 90 := by
      rw [sortByDate, List.length_insertionSort]
      exact hlt
    cases hN : f.hasNet with
    | false =>
        simp [score, mkCalc, validateData, hd, hi, he, hN, List.length_map, hlen,
          sortByDate, List.length_insertionSort, hlt, Except.map]
    | true =>
        simp [score, mkCalc, validateData, hd, hi, he, hN, hlen,
          sortByDate, List.length_insertionSort, hlt, Except.map]
  · intro h90
    exact ⟨_, score_ok f p hd hb hi he (by omega)⟩

theorem claim_C3_witness :
    (shortFrame.rows.length < 90 →
      score shortFrame 50 = Except.error (CFAError.insufficientHistory shortFrame.rows.length))
    ∧ (shortFrame.rows.length = 90 → ∃ r : CFAResult, score shortFrame 50 = Except.ok r) :=
  claim_C3 shortFrame 50 rfl rfl rfl rfl

/-- C4: for every record, `can_pay` equals 1 if and only if the record's
`daily_balance` is at least the parcel amount (0 otherwise); a balance
exactly equal to the parcel counts as affordable, and the classification of
record `i` depends only on that record's balance and the parcel amount. -/
theorem claim_C4 (c : Calc) (i : ℕ) (r : Row) (h : c.data.rows.get? i = some r) :
    ((c.calculate_can_pay.data.rows.get? i).map Row.can_pay
        = some (if r.daily_balance ≥ c.biweekly_parcel then (1 : ℚ) else 0))
    ∧ (r.daily_balance = c.biweekly_parcel →
        (c.calculate_can_pay.data.rows.get? i).map Row.can_pay = some 1) := by
  have key : (c.calculate_can_pay.data.rows.get? i).map Row.can_pay
      = some (canPay c.biweekly_parcel r) := by
    simp only [Calc.calculate_can_pay, List.get?_eq_getElem?, List.getElem?_map] at h ⊢
    rw [h]
    rfl
  refine ⟨?_, ?_⟩
  · rw [key]
    rfl
  · intro heq
    rw [key]
    simp [canPay, heq]

theorem claim_C4_witness :
    ((((Calc.mk demoFrame 50).calculate_can_pay.data.rows.get? 0).map Row.can_pay
        = some (if (demoRow 0).daily_balance ≥ (Calc.mk demoFrame 50).biweekly_parcel
            then (1 : ℚ) else 0))
    ∧ ((demoRow 0).daily_balance = (Calc.mk demoFrame 50).biweekly_parcel →
        ((Calc.mk demoFrame 50).calculate_can_pay.data.rows.get? 0).map Row.can_pay = some 1)) :=
  claim_C4 (Calc.mk demoFrame 50) 0 (demoRow 0) (by decide)

/-- C5 (counterexample): on a 90-day frame whose `daily_income` column is
absent, the constructor fails with a `KeyError` raised while deriving
`daily_net` (before `_validate_data` ever runs), not with the schema
validation error the claim promises. -/
theorem claim_C5_counterexample :
    score noIncomeFrame 50 = Except.error (CFAError.keyError "daily_income")
    ∧ score noIncomeFrame 50 ≠ Except.error (CFAError.schemaError ["daily_income"]) := by
  have h : score noIncomeFrame 50 = Except.error (CFAError.keyError "daily_income") := rfl
  refine ⟨h, ?_⟩
  rw [h]
  intro hc
  injection hc with hc'
  exact CFAError.noConfusion hc'

/-- C5 (amended): a series with an absent required column never scores, but
with the following error discipline: `daily_net` derivation precedes
validation, so a missing `date` (or a missing `daily_income` or
`daily_expenses` when no `daily_net` column was supplied) surfaces as a
`KeyError` from preprocessing before validation runs; the length check
precedes the schema check, so a short series reports insufficient history
even when required columns are missing; the `SchemaError` is reported only
for columns still missing at validation time (e.g. `daily_balance`, or
income/expenses when `daily_net` was supplied) on series of at least 90
rows, and it is checked against the full, untruncated series. -/
theorem claim_C5_amended (f : Frame) (p : ℚ) :
    (f.hasDate = false → mkCalc f p = Except.error (CFAError.keyError "date"))
    ∧ (f.hasDate = true → f.hasNet = false → f.hasIncome = false →
        mkCalc f p = Except.error (CFAError.keyError "daily_income"))
    ∧ (f.hasDate = true → f.hasNet = false → f.hasIncome = true → f.hasExpenses = false →
        mkCalc f p = Except.error (CFAError.keyError "daily_expenses"))
    ∧ (f.hasDate = true → f.hasIncome = true → f.hasExpenses = true → f.rows.length < 90 →
        mkCalc f p = Except.error (CFAError.insufficientHistory f.rows.length))
    ∧ (f.hasDate = true → f.hasBalance = false → f.hasIncome = true → f.hasExpenses = true →
        90 ≤ f.rows.length →
        mkCalc f p = Except.error (CFAError.schemaError ["daily_balance"]))
    ∧ (f.hasDate = true → f.hasNet = true → f.hasBalance = true → f.hasIncome = false →
        f.hasExpenses = true → 90 ≤ f.rows.length →
        mkCalc f p = Except.error (CFAError.schemaError ["daily_income"])) := by
  refine ⟨?_, ?_, ?_, ?_, ?_, ?_⟩
  · intro h
    simp [mkCalc, h]
  · intro h1 h2 h3
    simp [mkCalc, h1, h2, h3]
  · intro h1 h2 h3 h4
    simp [mkCalc, h1, h2, h3, h4]
  · intro h1 h2 h3 h4
    have hlen : (sortByDate f.rows).length < 90 := by
      rw [sortByDate, List.length_insertionSort]
      exact h4
    cases hN : f.hasNet with
    | false =>
        simp [mkCalc, validateData, h1, h2, h3, hN, List.length_map,
          sortByDate, List.length_insertionSort, h4]
    | true =>
        simp [mkCalc, validateData, h1, hN, sortByDate, List.length_insertionSort, h4]
  · intro h1 h2 h3 h4 h5
    have hlen : ¬ ((sortByDate f.rows).length < 90) := by
      rw [sortByDate, List.length_insertionSort]
      omega
    cases hN : f.hasNet with
    | false =>
        simp [mkCalc, validateData, missingRequired, h1, h2, h3, h4, hN, List.length_map,
          sortByDate, List.length_insertionSort, h5, Nat.not_lt]
    | true =>
        simp [mkCalc, validateData, missingRequired, h1, h2, h3, h4, hN,
          sortByDate, List.length_insertionSort, h5, Nat.not_lt]
  · intro h1 h2 h3 h4 h5 h6
    simp [mkCalc, validateData, missingRequired, h1, h2, h3, h4, h5,
      sortByDate, List.length_insertionSort, h6, Nat.not_lt]

theorem claim_C5_witness :
    mkCalc noIncomeFrame 50 = Except.error (CFAError.keyError "daily_income") :=
  (claim_C5_amended noIncomeFrame 50).2.1 rfl rfl rfl

/-- C6: on every valid input without a caller-supplied `can_pay` column,
`max_consecutive_can_pay_90d` is the length of the longest run of
consecutive `1`s in the `can_pay` sequence of the last 90 records (the
same window as `pct_90`): it is the largest `m` for which the window
contains a contiguous block of `m` ones, it is at most 90, it equals 90
when every day of the window has `can_pay = 1`, and it equals 0 when no
day does. -/
theorem claim_C6 (f : Frame) (p : ℚ)
    (hd : f.hasDate = true) (hb : f.hasBalance = true) (hi : f.hasIncome = true)
    (he : f.hasExpenses = true) (hcp : f.hasCanPay = false)
    (hn : 90 ≤ f.rows.length) (hp : 0 < p) :
    ∃ r : CFAResult, score f p = Except.ok r
      ∧ hasRun ((tail90 (sortByDate f.rows)).map (canPay p)) r.max_consecutive_can_pay_90d
      ∧ (∀ m : ℕ, hasRun ((tail90 (sortByDate f.rows)).map (canPay p)) m →
          m ≤ r.max_consecutive_can_pay_90d)
      ∧ r.max_consecutive_can_pay_90d ≤ 90
      ∧ ((∀ x ∈ (tail90 (sortByDate f.rows)).map (canPay p), x = 1) →
          r.max_consecutive_can_pay_90d = 90)
      ∧ ((∀ x ∈ (tail90 (sortByDate f.rows)).map (canPay p), x ≠ 1) →
          r.max_consecutive_can_pay_90d = 0) := by
  have hsl : 90 ≤ (sortByDate f.rows).length := by
    rw [sortByDate, List.length_insertionSort]
    exact hn
  have hwlen : ((tail90 (sortByDate f.rows)).map (canPay p)).length = 90 := by
    rw [List.length_map, tail90_length hsl]
  refine ⟨(initCalc f p).calculate_cfa, score_ok f p hd hb hi he hn, ?_, ?_, ?_, ?_, ?_⟩
  · rw [calculate_cfa_initCalc, canPayCol_false hcp]
    exact hasRun_maxConsecutiveOnes _
  · intro m hm
    rw [calculate_cfa_initCalc, canPayCol_false hcp]
    exact hasRun_le_maxConsecutiveOnes hm
  · rw [calculate_cfa_initCalc, canPayCol_false hcp, ← hwlen]
    exact maxConsecutiveOnes_le_length _
  · intro hall
    rw [calculate_cfa_initCalc, canPayCol_false hcp, maxConsecutiveOnes_all_ones hall, hwlen]
  · intro hnone
    rw [calculate_cfa_initCalc, canPayCol_false hcp]
    exact maxConsecutiveOnes_no_ones hnone

theorem claim_C6_witness :
    ∃ r : CFAResult, score demoFrame 50 = Except.ok r
      ∧ hasRun ((tail90 (sortByDate demoFrame.rows)).map (canPay 50))
          r.max_consecutive_can_pay_90d
      ∧ (∀ m : ℕ, hasRun ((tail90 (sortByDate demoFrame.rows)).map (canPay 50)) m →
          m ≤ r.max_consecutive_can_pay_90d)
      ∧ r.max_consecutive_can_pay_90d ≤ 90
      ∧ ((∀ x ∈ (tail90 (sortByDate demoFrame.rows)).map (canPay 50), x = 1) →
          r.max_consecutive_can_pay_90d = 90)
      ∧ ((∀ x ∈ (tail90 (sortByDate demoFrame.rows)).map (canPay 50), x ≠ 1) →
          r.max_consecutive_can_pay_90d = 0) :=
  claim_C6 demoFrame 50 rfl rfl rfl rfl rfl (by decide) (by norm_num)

/-- C7 (counterexample): on the valid 91-day input `cexFrame` with parcel
50 the produced result has `cfa_score = 0.0664`, but recombining the
rounded output fields gives `round(0.70 * 0.0667 + 0.30 * 0.0659, 4) =
0.0665`: the equation of the claim fails on the produced (rounded)
`pct_90`/`pct_6m` fields. -/
theorem claim_C7_counterexample :
    ∃ r : CFAResult, score cexFrame 50 = Except.ok r
      ∧ ¬ (r.cfa_score = pyRound 4 (r.pct_90 * (70/100) + r.pct_6m * (30/100))) := by
  refine ⟨(initCalc cexFrame 50).calculate_cfa,
    score_ok cexFrame 50 rfl rfl rfl rfl (by decide), ?_⟩
  rw [calculate_cfa_initCalc]
  rw [@canPayCol_false cexFrame rfl 50, canPay_sum_eq_countP, canPay_sum_eq_countP]
  have h1 : (tail90 (sortByDate cexFrame.rows)).countP
      (fun r => decide (r.daily_balance ≥ 50)) = 6 := by decide
  have h2 : cexFrame.rows.countP (fun r => decide (r.daily_balance ≥ 50)) = 6 := by decide
  have h3 : cexFrame.rows.length = 91 := by decide
  rw [h1, h2, h3]
  norm_num [pyRound, roundHalfEven]

/-- C7 (amended): on every valid input without a caller-supplied `can_pay`
column, the produced result satisfies `0 ≤ pct_90 ≤ 1`, `0 ≤ pct_6m ≤ 1`
and `0 ≤ cfa_score ≤ 1`, and `cfa_score` equals
`round(0.70 * pct_90 + 0.30 * pct_6m, 4)` computed from the *unrounded*
rates (not from the rounded `pct_90`/`pct_6m` fields of the result, for
which the equation can be off by one in the fourth decimal). -/
theorem claim_C7_amended (f : Frame) (p : ℚ)
    (hd : f.hasDate = true) (hb : f.hasBalance = true) (hi : f.hasIncome = true)
    (he : f.hasExpenses = true) (hcp : f.hasCanPay = false)
    (hn : 90 ≤ f.rows.length) (hp : 0 < p) :
    ∃ r : CFAResult, score f p = Except.ok r
      ∧ 0 ≤ r.pct_90 ∧ r.pct_90 ≤ 1
      ∧ 0 ≤ r.pct_6m ∧ r.pct_6m ≤ 1
      ∧ 0 ≤ r.cfa_score ∧ r.cfa_score ≤ 1
      ∧ r.cfa_score = pyRound 4
          ((((tail90 (sortByDate f.rows)).map (canPay p)).sum / 90) * (70/100)
            + ((f.rows.map (canPay p)).sum / (f.rows.length : ℚ)) * (30/100)) := by
  have hsl : 90 ≤ (sortByDate f.rows).length := by
    rw [sortByDate, List.length_insertionSort]
    exact hn
  have hwlen : ((tail90 (sortByDate f.rows)) : List Row).length = 90 := tail90_length hsl
  have ha0 : 0 ≤ ((tail90 (sortByDate f.rows)).map (canPay p)).sum / 90 :=
    div_nonneg (canPay_sum_nonneg p _) (by norm_num)
  have ha1 : ((tail90 (sortByDate f.rows)).map (canPay p)).sum / 90 ≤ 1 := by
    rw [div_le_one (by norm_num : (0:ℚ) < 90)]
    have := canPay_sum_le p (tail90 (sortByDate f.rows))
    rw [hwlen] at this
    exact_mod_cast this
  have hn0 : (0 : ℚ) < (f.rows.length : ℚ) := by
    exact_mod_cast lt_of_lt_of_le (by norm_num : 0 < 90) hn
  have hb0 : 0 ≤ (f.rows.map (canPay p)).sum / (f.rows.length : ℚ) :=
    div_nonneg (canPay_sum_nonneg p _) (le_of_lt hn0)
  have hb1 : (f.rows.map (canPay p)).sum / (f.rows.length : ℚ) ≤ 1 := by
    rw [div_le_one hn0]
    exact canPay_sum_le p f.rows
  have hc0 : 0 ≤ (((tail90 (sortByDate f.rows)).map (canPay p)).sum / 90) * (70/100)
      + ((f.rows.map (canPay p)).sum / (f.rows.length : ℚ)) * (30/100) := by
    linarith
  have hc1 : (((tail90 (sortByDate f.rows)).map (canPay p)).sum / 90) * (70/100)
      + ((f.rows.map (canPay p)).sum / (f.rows.length : ℚ)) * (30/100) ≤ 1 := by
    linarith
  refine ⟨(initCalc f p).calculate_cfa, score_ok f p hd hb hi he hn,
    ?_, ?_, ?_, ?_, ?_, ?_, ?_⟩ <;>
    rw [calculate_cfa_initCalc, canPayCol_false hcp]
  · exact pyRound_nonneg 4 ha0
  · exact pyRound_le_one 4 ha1
  · exact pyRound_nonneg 4 hb0
  · exact pyRound_le_one 4 hb1
  · exact pyRound_nonneg 4 hc0
  · exact pyRound_le_one 4 hc1

theorem claim_C7_witness :
    ∃ r : CFAResult, score demoFrame 50 = Except.ok r
      ∧ 0 ≤ r.pct_90 ∧ r.pct_90 ≤ 1
      ∧ 0 ≤ r.pct_6m ∧ r.pct_6m ≤ 1
      ∧ 0 ≤ r.cfa_score ∧ r.cfa_score ≤ 1
      ∧ r.cfa_score = pyRound 4
          ((((tail90 (sortByDate demoFrame.rows)).map (canPay 50)).sum / 90) * (70/100)
            + ((demoFrame.rows.map (canPay 50)).sum / (demoFrame.rows.length : ℚ)) * (30/100)) :=
  claim_C7_amended demoFrame 50 rfl rfl rfl rfl rfl (by decide) (by norm_num)

/-- C8: on every valid input, `balance_stats` holds the mean, minimum,
maximum and sample standard deviation (`n - 1` denominator, rounded to 2
decimal places) of `daily_balance` over the entire series, and `net_stats`
holds the mean of `daily_net` over the entire series (2 decimal places)
together with the fraction of days with strictly positive `daily_net`
(4 decimal places). -/
theorem claim_C8 (f : Frame) (p : ℚ)
    (hd : f.hasDate = true) (hb : f.hasBalance = true) (hi : f.hasIncome = true)
    (he : f.hasExpenses = true) (hn : 90 ≤ f.rows.length) (hp : 0 < p) :
    ∃ r : CFAResult, score f p = Except.ok r
      ∧ r.balance_stats.avg_balance = pyRound 2 (meanQ (f.rows.map Row.daily_balance))
      ∧ r.balance_stats.min_balance = pyRound 2 (minQ (f.rows.map Row.daily_balance))
      ∧ r.balance_stats.max_balance = pyRound 2 (maxQ (f.rows.map Row.daily_balance))
      ∧ r.balance_stats.std_balance = sqrtRound2 (sampleVar (f.rows.map Row.daily_balance))
      ∧ r.net_stats.avg_daily_net = pyRound 2 (meanQ (f.rows.map (netVal f)))
      ∧ r.net_stats.positive_days_pct = pyRound 4
          ((((f.rows.map (netVal f)).countP (fun x => decide (0 < x))) : ℚ)
            / (f.rows.length : ℚ)) := by
  refine ⟨(initCalc f p).calculate_cfa, score_ok f p hd hb hi he hn,
    ?_, ?_, ?_, ?_, ?_, ?_⟩ <;>
    rw [calculate_cfa_initCalc]

theorem claim_C8_witness :
    ∃ r : CFAResult, score demoFrame 50 = Except.ok r
      ∧ r.balance_stats.avg_balance = pyRound 2 (meanQ (demoFrame.rows.map Row.daily_balance))
      ∧ r.balance_stats.min_balance = pyRound 2 (minQ (demoFrame.rows.map Row.daily_balance))
      ∧ r.balance_stats.max_balance = pyRound 2 (maxQ (demoFrame.rows.map Row.daily_balance))
      ∧ r.balance_stats.std_balance = sqrtRound2 (sampleVar (demoFrame.rows.map Row.daily_balance))
      ∧ r.net_stats.avg_daily_net = pyRound 2 (meanQ (demoFrame.rows.map (netVal demoFrame)))
      ∧ r.net_stats.positive_days_pct = pyRound 4
          ((((demoFrame.rows.map (netVal demoFrame)).countP (fun x => decide (0 < x))) : ℚ)
            / (demoFrame.rows.length : ℚ)) :=
  claim_C8 demoFrame 50 rfl rfl rfl rfl (by decide) (by norm_num)

/-- C9: for every valid series with pairwise-distinct dates, the engine
sorts the records by ascending date before any computation, so the
complete scoring result is invariant under any permutation of the input
rows (with the schema flags unchanged). -/
theorem claim_C9 (l₁ l₂ : List Row) (d b i e nt cp : Bool) (p : ℚ)
    (hperm : List.Perm l₁ l₂) (hnd : (l₁.map Row.date).Nodup)
    (hd : d = true) (hb : b = true) (hi : i = true) (he : e = true)
    (hn : 90 ≤ l₁.length) (hp : 0 < p) :
    score ⟨l₁, d, b, i, e, nt, cp⟩ p = score ⟨l₂, d, b, i, e, nt, cp⟩ p := by
  have hs : sortByDate l₁ = sortByDate l₂ := sortByDate_eq_of_perm hperm hnd
  simp only [score, mkCalc]
  rw [hs]

theorem claim_C9_witness :
    score ⟨(List.range 90).map demoRow, true, true, true, true, false, false⟩ 50
      = score ⟨((List.range 90).map demoRow).reverse, true, true, true, true, false, false⟩ 50 :=
  claim_C9 ((List.range 90).map demoRow) (((List.range 90).map demoRow).reverse)
    true true true true false false 50
    (List.reverse_perm _).symm (by decide) rfl rfl rfl rfl (by decide) (by norm_num)

/-- C10: on every valid input that already contains a `can_pay` column, the
engine uses the supplied values verbatim for `pct_90`, `pct_6m`,
`cfa_score` and the streak and never recomputes them from `daily_balance`
and the parcel; the per-record threshold rule is applied only when no
`can_pay` column is present. -/
theorem claim_C10 (f : Frame) (p : ℚ)
    (hd : f.hasDate = true) (hb : f.hasBalance = true) (hi : f.hasIncome = true)
    (he : f.hasExpenses = true) (hn : 90 ≤ f.rows.length) (hp : 0 < p) :
    (f.hasCanPay = true →
      ∃ r : CFAResult, score f p = Except.ok r
        ∧ r.pct_90 = pyRound 4 (((tail90 (sortByDate f.rows)).map Row.can_pay).sum / 90)
        ∧ r.pct_6m = pyRound 4 ((f.rows.map Row.can_pay).sum / (f.rows.length : ℚ))
        ∧ r.cfa_score = pyRound 4
            ((((tail90 (sortByDate f.rows)).map Row.can_pay).sum / 90) * (70/100)
              + ((f.rows.map Row.can_pay).sum / (f.rows.length : ℚ)) * (30/100))
        ∧ r.max_consecutive_can_pay_90d =
            maxConsecutiveOnes ((tail90 (sortByDate f.rows)).map Row.can_pay))
    ∧ (f.hasCanPay = false →
      ∃ r : CFAResult, score f p = Except.ok r
        ∧ r.pct_90 = pyRound 4 (((tail90 (sortByDate f.rows)).map (canPay p)).sum / 90)
        ∧ r.max_consecutive_can_pay_90d =
            maxConsecutiveOnes ((tail90 (sortByDate f.rows)).map (canPay p))) := by
  constructor
  · intro hcp
    refine ⟨(initCalc f p).calculate_cfa, score_ok f p hd hb hi he hn, ?_, ?_, ?_, ?_⟩ <;>
      rw [calculate_cfa_initCalc, canPayCol_true hcp]
  · intro hcp
    refine ⟨(initCalc f p).calculate_cfa, score_ok f p hd hb hi he hn, ?_, ?_⟩ <;>
      rw [calculate_cfa_initCalc, canPayCol_false hcp]

theorem claim_C10_witness :
    ∃ r : CFAResult, score cpFrame 50 = Except.ok r
      ∧ r.pct_90 = pyRound 4 (((tail90 (sortByDate cpFrame.rows)).map Row.can_pay).sum / 90)
      ∧ r.pct_6m = pyRound 4 ((cpFrame.rows.map Row.can_pay).sum / (cpFrame.rows.length : ℚ))
      ∧ r.cfa_score = pyRound 4
          ((((tail90 (sortByDate cpFrame.rows)).map Row.can_pay).sum / 90) * (70/100)
            + ((cpFrame.rows.map Row.can_pay).sum / (cpFrame.rows.length : ℚ)) * (30/100))
      ∧ r.max_consecutive_can_pay_90d =
          maxConsecutiveOnes ((tail90 (sortByDate cpFrame.rows)).map Row.can_pay) :=
  (claim_C10 cpFrame 50 rfl rfl rfl rfl (by decide) (by norm_num)).1 rfl

end CFA
